import Mathlib

/-!
Shallow embedding of `src/native/typescript_validator/src/lib.rs` (crate
`typescript_validator` of the `nb_ts` repository).

The file embeds the single exported operation `validate`.  Strings are
modelled as `List Char`.  The two external engines the code calls — the
structural parser (`oxc_parser::Parser::parse`) and the semantic checker
(`oxc_semantic::SemanticBuilder::build`) — are not code of this crate; they
are modelled as oracle functions packaged in an `Engines` structure, so every
theorem quantifies over all possible engine behaviours.  A call into an
engine sits behind `std::panic::catch_unwind`; its outcome is modelled by
`CatchResult`: `.ok v` for a normal return and `.caught` for a panic stopped
by the fault barrier.
-/

namespace NbTs

/-- Strings of the Rust code, modelled as lists of characters. -/
abbrev Str := List Char

/-- Rust's `char::is_whitespace`: the Unicode `White_Space` property.
Used by `str::trim_start` on line 19 of the source. -/
def rustIsWhitespace (c : Char) : Bool :=
  c.toNat = 0x09 || c.toNat = 0x0A || c.toNat = 0x0B || c.toNat = 0x0C ||
  c.toNat = 0x0D || c.toNat = 0x20 || c.toNat = 0x85 || c.toNat = 0xA0 ||
  c.toNat = 0x1680 || (0x2000 ≤ c.toNat && c.toNat ≤ 0x200A) ||
  c.toNat = 0x2028 || c.toNat = 0x2029 || c.toNat = 0x202F ||
  c.toNat = 0x205F || c.toNat = 0x3000

/-- Rust's `str::trim_start`: drop leading whitespace characters. -/
def trimStart (s : Str) : Str := s.dropWhile rustIsWhitespace

/-- The wrapping of lib.rs line 26:
`format!("type __ValidationType = {};", typescript_code)`. -/
def wrapAlias (s : Str) : Str :=
  "type __ValidationType = ".toList ++ s ++ ";".toList

/-- The keyword test of lib.rs lines 19–22: the trimmed input starts with
`"export"`, `"type "`, `"interface "` or `"declare "`. -/
def looksLikeCompleteStatement (s : Str) : Bool :=
  "export".toList.isPrefixOf (trimStart s) ||
  "type ".toList.isPrefixOf (trimStart s) ||
  "interface ".toList.isPrefixOf (trimStart s) ||
  "declare ".toList.isPrefixOf (trimStart s)

/-- `code_to_validate` of lib.rs lines 19–27: pass complete statements
through unchanged, wrap anything else as a type alias. -/
def normalize (typescript_code : Str) : Str :=
  if looksLikeCompleteStatement typescript_code then typescript_code
  else wrapAlias typescript_code

/-- The parser's return value, as used by lib.rs: the `panicked` flag
(line 45) and the list of diagnostic messages (lines 50–54, already
rendered through `format!("{}", e)`). -/
structure ParserReturn where
  panicked : Bool
  errors : List Str
deriving DecidableEq

/-- Outcome of a call wrapped in `std::panic::catch_unwind`:
`.ok v` is `Ok(v)`, `.caught` is `Err(_)` (a panic stopped by the fault
barrier). -/
inductive CatchResult (α : Type) where
  | ok (val : α)
  | caught
deriving DecidableEq

/-- The two external engines, as oracles over the normalized source text.
`parse` models lines 31–33 (parsing `code_to_validate`); `semantic` models
lines 65–69 (the semantic pass over the tree parsed from that same text,
its diagnostics already rendered to strings). -/
structure Engines where
  parse : Str → CatchResult ParserReturn
  semantic : Str → CatchResult (List Str)

/-- The fixed message of lib.rs lines 40 and 46. -/
def unrecoverableMsg : Str :=
  "TypeScript parser encountered an unrecoverable error".toList

/-- The fixed label of lib.rs lines 56 and 97. -/
def syntaxErrorLabel : Str := "TypeScript syntax error: ".toList

/-- Rust's `Vec::join("; ")` on a list of messages (lines 56 and 97). -/
def joinMsgs (msgs : List Str) : Str := List.intercalate "; ".toList msgs

/-- Rust's `str::contains(pattern)`: the pattern occurs contiguously in the
haystack. -/
def strContains (hay needle : Str) : Bool := decide (needle <:+: hay)

/-- The diagnostic filter predicate of lib.rs line 91:
`!msg.contains("Cannot find") && !msg.contains("module")`. -/
def keepDiag (msg : Str) : Bool :=
  !(strContains msg "Cannot find".toList) && !(strContains msg "module".toList)

/-- The `validate` NIF of lib.rs lines 7–103, with the two engine calls
abstracted as oracles.  `Except.error` is the `Err` (rejected) case,
`Except.ok` the `Ok` (accepted) case of the inner `Result<String, String>`
(the outer `NifResult` is always `Ok` and is omitted). -/
def validate (eng : Engines) (typescript_code : Str) : Except Str Str :=
  match eng.parse (normalize typescript_code) with
  | .caught =>
      .error unrecoverableMsg
  | .ok parser_return =>
      if parser_return.panicked then
        .error unrecoverableMsg
      else if !parser_return.errors.isEmpty then
        .error (syntaxErrorLabel ++ joinMsgs parser_return.errors)
      else
        match eng.semantic (normalize typescript_code) with
        | .caught => .ok typescript_code
        | .ok semErrors =>
            if !semErrors.isEmpty then
              if !(semErrors.filter keepDiag).isEmpty then
                .error (syntaxErrorLabel ++ joinMsgs (semErrors.filter keepDiag))
              else .ok typescript_code
            else .ok typescript_code

/-- Engine behaviour where parsing and semantic analysis both succeed
cleanly; used to instantiate universally quantified theorems. -/
def engClean : Engines :=
  ⟨fun _ => .ok ⟨false, []⟩, fun _ => .ok []⟩

/-- Engine behaviour where the parser reports one syntax diagnostic. -/
def engSynErr : Engines :=
  ⟨fun _ => .ok ⟨false, ["Unexpected token".toList]⟩, fun _ => .ok []⟩

/-- Engine behaviour where the parser panics into the fault barrier. -/
def engParseFault : Engines :=
  ⟨fun _ => .caught, fun _ => .ok []⟩

/-- Engine behaviour where the parser succeeds but the semantic checker
panics into its fault barrier. -/
def engSemFault : Engines :=
  ⟨fun _ => .ok ⟨false, []⟩, fun _ => .caught⟩

/-- Engine behaviour where the semantic checker returns one context-loss
diagnostic (filtered out) and nothing else. -/
def engSemModuleErr : Engines :=
  ⟨fun _ => .ok ⟨false, []⟩,
   fun _ => .ok ["Cannot find name External".toList]⟩

end NbTs

namespace NbTs

/-- The Normalizer as the specification states it: an input whose text,
with leading whitespace trimmed, begins with "export", "type ",
"interface " or "declare " is fed to the parser unchanged; every other
input is fed as exactly `type __ValidationType = <input>;`. -/
def normalizeSpec (s : Str) : Str :=
  if ("export".toList <+: trimStart s) ∨ ("type ".toList <+: trimStart s) ∨
     ("interface ".toList <+: trimStart s) ∨ ("declare ".toList <+: trimStart s)
  then s
  else "type __ValidationType = ".toList ++ s ++ ";".toList

/-- Claim C1: whenever validate accepts, the string carried in the success
outcome is exactly the original request string — never the
normalized/wrapped form — for every engine behaviour, including the benign
semantic-fault path. -/
theorem validate_accepted_is_original (eng : Engines) (code out : Str)
    (h : validate eng code = .ok out) : out = code := by
  unfold validate at h
  repeat' split at h
  all_goals simp_all

/-- Witness: with engines that parse cleanly, validate accepts "5" and the
carried string equals the original input. -/
theorem validate_accepted_is_original_witness :
    validate engClean "5".toList = Except.ok "5".toList ∧
    ("5".toList : Str) = "5".toList :=
  ⟨rfl, validate_accepted_is_original engClean "5".toList "5".toList rfl⟩

/-- Claim C2: if the parser returns without a fault (panicked flag false)
but with a non-empty diagnostic list, validate rejects with the label
"TypeScript syntax error: " followed by all diagnostics joined by "; ",
and the outcome is the same for every semantic-checker behaviour (the
semantic checker is never consulted). -/
theorem validate_syntax_errors_reject (eng : Engines) (code : Str) (pr : ParserReturn)
    (hp : eng.parse (normalize code) = .ok pr) (hpan : pr.panicked = false)
    (herr : pr.errors ≠ []) :
    validate eng code = .error (syntaxErrorLabel ++ joinMsgs pr.errors) ∧
    ∀ sem, validate ⟨eng.parse, sem⟩ code
      = .error (syntaxErrorLabel ++ joinMsgs pr.errors) := by
  have herr' : pr.errors.isEmpty = false := by
    cases hc : pr.errors with
    | nil => exact absurd hc herr
    | cons a as => rfl
  constructor
  · unfold validate
    rw [hp]
    simp [hpan, herr']
  · intro sem
    unfold validate
    rw [show (Engines.mk eng.parse sem).parse = eng.parse from rfl, hp]
    simp [hpan, herr']

/-- Witness: an engine reporting one syntax diagnostic makes validate
reject with the labelled, joined message. -/
theorem validate_syntax_errors_reject_witness :
    validate engSynErr "5".toList
      = Except.error (syntaxErrorLabel ++ joinMsgs ["Unexpected token".toList]) :=
  (validate_syntax_errors_reject engSynErr "5".toList
    ⟨false, ["Unexpected token".toList]⟩ rfl rfl (List.cons_ne_nil _ _)).1

/-- Claim C3: if the parser trips the fault barrier or returns with its
panicked flag set, validate rejects with exactly the fixed unrecoverable
message, whatever partial diagnostics exist, and the outcome is the same
for every semantic-checker behaviour (the semantic checker is never
consulted). -/
theorem validate_parser_fault_rejects (eng : Engines) (code : Str)
    (h : eng.parse (normalize code) = .caught ∨
      ∃ pr, eng.parse (normalize code) = .ok pr ∧ pr.panicked = true) :
    validate eng code = .error unrecoverableMsg ∧
    ∀ sem, validate ⟨eng.parse, sem⟩ code = .error unrecoverableMsg := by
  constructor
  · unfold validate
    rcases h with hc | ⟨pr, hp, hpan⟩
    · rw [hc]
    · rw [hp]; simp [hpan]
  · intro sem
    unfold validate
    rcases h with hc | ⟨pr, hp, hpan⟩
    · rw [show (Engines.mk eng.parse sem).parse = eng.parse from rfl, hc]
    · rw [show (Engines.mk eng.parse sem).parse = eng.parse from rfl, hp]
      simp [hpan]

/-- Witness: an engine that panics into the fault barrier makes validate
reject with the fixed unrecoverable message. -/
theorem validate_parser_fault_rejects_witness :
    validate engParseFault "5".toList = Except.error unrecoverableMsg :=
  (validate_parser_fault_rejects engParseFault "5".toList (Or.inl rfl)).1

/-- Claim C4: if the parser succeeds with no panic and zero syntax errors
and the semantic checker then faults into its barrier, validate accepts
with the original input string. -/
theorem validate_semantic_fault_accepts (eng : Engines) (code : Str) (pr : ParserReturn)
    (hp : eng.parse (normalize code) = .ok pr) (hpan : pr.panicked = false)
    (herr : pr.errors = []) (hs : eng.semantic (normalize code) = .caught) :
    validate eng code = .ok code := by
  unfold validate
  rw [hp]
  simp [hpan, herr]
  rw [hs]

/-- Witness: a clean parse followed by a semantic-checker panic still
accepts the original input. -/
theorem validate_semantic_fault_accepts_witness :
    validate engSemFault "5".toList = Except.ok "5".toList :=
  validate_semantic_fault_accepts engSemFault "5".toList ⟨false, []⟩ rfl rfl rfl rfl

/-- Claim C5: after a clean parse and a non-faulting semantic run, validate
keeps exactly the diagnostics passing keepDiag — so no surviving message
contains "Cannot find" or "module" — and rejects with the labelled join of
the survivors when any survive, accepting otherwise. -/
theorem validate_semantic_filtering (eng : Engines) (code : Str) (pr : ParserReturn)
    (errs : List Str)
    (hp : eng.parse (normalize code) = .ok pr) (hpan : pr.panicked = false)
    (herr : pr.errors = []) (hs : eng.semantic (normalize code) = .ok errs) :
    (validate eng code =
      if (errs.filter keepDiag).isEmpty then .ok code
      else .error (syntaxErrorLabel ++ joinMsgs (errs.filter keepDiag))) ∧
    ∀ m ∈ errs.filter keepDiag,
      strContains m "Cannot find".toList = false ∧
      strContains m "module".toList = false := by
  constructor
  · unfold validate
    rw [hp]
    simp only [hpan, herr]
    rw [hs]
    cases hc : errs with
    | nil => simp
    | cons a as =>
        simp only [List.isEmpty_cons, Bool.not_false, if_true]
        rw [← hc]
        cases hf : (errs.filter keepDiag).isEmpty <;> simp [hf]
  · intro m hm
    have hk : keepDiag m = true := (List.mem_filter.mp hm).2
    unfold keepDiag at hk
    constructor
    · cases hcf : strContains m "Cannot find".toList
      · rfl
      · rw [hcf] at hk; simp at hk
    · cases hmo : strContains m "module".toList
      · rfl
      · rw [hmo] at hk; simp at hk

/-- Witness: a lone "Cannot find ..." semantic diagnostic is filtered out
and the call accepts. -/
theorem validate_semantic_filtering_witness :
    (validate engSemModuleErr "5".toList =
      if ((["Cannot find name External".toList] : List Str).filter keepDiag).isEmpty
      then Except.ok "5".toList
      else Except.error (syntaxErrorLabel ++
        joinMsgs ((["Cannot find name External".toList] : List Str).filter keepDiag))) ∧
    ∀ m ∈ (["Cannot find name External".toList] : List Str).filter keepDiag,
      strContains m "Cannot find".toList = false ∧
      strContains m "module".toList = false :=
  validate_semantic_filtering engSemModuleErr "5".toList ⟨false, []⟩
    ["Cannot find name External".toList] rfl rfl rfl rfl

/-- Claim C6: the text fed to the parser is exactly what the specification
describes — the input unchanged when its trimmed text begins with one of
the four keywords, otherwise the wrapped alias form — and validate
consults its engines only on that normalized text. -/
theorem normalizer_matches_spec :
    (∀ s, normalize s = normalizeSpec s) ∧
    (∀ eng engB code, eng.parse (normalize code) = engB.parse (normalize code) →
      eng.semantic (normalize code) = engB.semantic (normalize code) →
      validate eng code = validate engB code) := by
  constructor
  · intro s
    unfold normalize normalizeSpec looksLikeCompleteStatement wrapAlias
    simp only [Bool.or_eq_true, List.isPrefixOf_iff_prefix, or_assoc]
  · intro eng engB code hp hs
    unfold validate
    rw [hp, hs]

/-- Witness: the Normalizer matches its specification at "5", and engines
agreeing on the normalized text give equal outcomes there. -/
theorem normalizer_matches_spec_witness :
    normalize "5".toList = normalizeSpec "5".toList ∧
    validate engClean "5".toList = validate engClean "5".toList :=
  ⟨(normalizer_matches_spec).1 "5".toList,
   (normalizer_matches_spec).2 engClean engClean "5".toList rfl rfl⟩

/-- Claim C7: validate is deterministic — two invocations on the same
input with the same engine behaviour yield identical outcomes. -/
theorem validate_deterministic (eng : Engines) (code : Str) (r s : Except Str Str)
    (h₁ : validate eng code = r) (h₂ : validate eng code = s) : r = s := by
  rw [← h₁, ← h₂]

/-- Witness: two runs of validate on "5" with clean engines produce the
same accepted outcome. -/
theorem validate_deterministic_witness :
    (Except.ok "5".toList : Except Str Str) = Except.ok "5".toList :=
  validate_deterministic engClean "5".toList
    (Except.ok "5".toList) (Except.ok "5".toList) rfl rfl

/-- Claim C8: every rejection message is either exactly the fixed
unrecoverable-error string, or begins with "TypeScript syntax error: ". -/
theorem validate_rejection_shape (eng : Engines) (code msg : Str)
    (h : validate eng code = .error msg) :
    msg = unrecoverableMsg ∨ syntaxErrorLabel <+: msg := by
  unfold validate at h
  repeat' split at h
  all_goals cases h
  all_goals first
  | exact Or.inl rfl
  | exact Or.inr ⟨joinMsgs _, rfl⟩

/-- Witness: the parser-fault rejection message has one of the two allowed
shapes. -/
theorem validate_rejection_shape_witness :
    unrecoverableMsg = unrecoverableMsg ∨ syntaxErrorLabel <+: unrecoverableMsg :=
  validate_rejection_shape engParseFault "5".toList unrecoverableMsg rfl

/-- Claim C9: the keyword check has no word boundary and treats "export"
asymmetrically — any trimmed input extending "export" passes through
unwrapped (so "exports.foo = 1" is unwrapped), while each of "type",
"interface" and "declare" must be followed by a space to suppress
wrapping: a trimmed input starting with the bare keyword but not with the
keyword-plus-space is wrapped (so "typeof x" and the bare word "declare"
are both wrapped as type-alias bodies). -/
theorem normalizer_keyword_asymmetry :
    (∀ s, "export".toList.isPrefixOf (trimStart s) = true → normalize s = s) ∧
    (∀ s, "type".toList <+: trimStart s → ¬("type ".toList <+: trimStart s) →
      normalize s = wrapAlias s) ∧
    (∀ s, "interface".toList <+: trimStart s → ¬("interface ".toList <+: trimStart s) →
      normalize s = wrapAlias s) ∧
    (∀ s, "declare".toList <+: trimStart s → ¬("declare ".toList <+: trimStart s) →
      normalize s = wrapAlias s) ∧
    normalize "exports.foo = 1".toList = "exports.foo = 1".toList ∧
    normalize "typeof x".toList = wrapAlias "typeof x".toList ∧
    normalize "declare".toList = wrapAlias "declare".toList := by
  refine ⟨?_, ?_, ?_, ?_, by decide, by decide, by decide⟩
  · intro s hexp
    unfold normalize looksLikeCompleteStatement
    rw [hexp]
    simp
  · intro s htype hns
    obtain ⟨rest, hrest⟩ := htype
    have hts : trimStart s = 't' :: 'y' :: 'p' :: 'e' :: rest := hrest.symm
    have hsp : "type ".toList.isPrefixOf (trimStart s) = false :=
      Bool.eq_false_iff.mpr fun hb => hns (List.isPrefixOf_iff_prefix.mp hb)
    have hexp : "export".toList.isPrefixOf ('t' :: 'y' :: 'p' :: 'e' :: rest) = false := rfl
    have hint : "interface ".toList.isPrefixOf ('t' :: 'y' :: 'p' :: 'e' :: rest) = false := rfl
    have hdec : "declare ".toList.isPrefixOf ('t' :: 'y' :: 'p' :: 'e' :: rest) = false := rfl
    rw [hts] at hsp
    have hfalse : looksLikeCompleteStatement s = false := by
      unfold looksLikeCompleteStatement
      rw [hts, hexp, hsp, hint, hdec]
      rfl
    unfold normalize
    rw [hfalse]
    simp
  · intro s hintp hns
    obtain ⟨rest, hrest⟩ := hintp
    have hts : trimStart s
        = 'i' :: 'n' :: 't' :: 'e' :: 'r' :: 'f' :: 'a' :: 'c' :: 'e' :: rest := hrest.symm
    have hsp : "interface ".toList.isPrefixOf (trimStart s) = false :=
      Bool.eq_false_iff.mpr fun hb => hns (List.isPrefixOf_iff_prefix.mp hb)
    have hexp : "export".toList.isPrefixOf
        ('i' :: 'n' :: 't' :: 'e' :: 'r' :: 'f' :: 'a' :: 'c' :: 'e' :: rest) = false := rfl
    have htyp : "type ".toList.isPrefixOf
        ('i' :: 'n' :: 't' :: 'e' :: 'r' :: 'f' :: 'a' :: 'c' :: 'e' :: rest) = false := rfl
    have hdec : "declare ".toList.isPrefixOf
        ('i' :: 'n' :: 't' :: 'e' :: 'r' :: 'f' :: 'a' :: 'c' :: 'e' :: rest) = false := rfl
    rw [hts] at hsp
    have hfalse : looksLikeCompleteStatement s = false := by
      unfold looksLikeCompleteStatement
      rw [hts, hexp, htyp, hsp, hdec]
      rfl
    unfold normalize
    rw [hfalse]
    simp
  · intro s hdecp hns
    obtain ⟨rest, hrest⟩ := hdecp
    have hts : trimStart s
        = 'd' :: 'e' :: 'c' :: 'l' :: 'a' :: 'r' :: 'e' :: rest := hrest.symm
    have hsp : "declare ".toList.isPrefixOf (trimStart s) = false :=
      Bool.eq_false_iff.mpr fun hb => hns (List.isPrefixOf_iff_prefix.mp hb)
    have hexp : "export".toList.isPrefixOf
        ('d' :: 'e' :: 'c' :: 'l' :: 'a' :: 'r' :: 'e' :: rest) = false := rfl
    have htyp : "type ".toList.isPrefixOf
        ('d' :: 'e' :: 'c' :: 'l' :: 'a' :: 'r' :: 'e' :: rest) = false := rfl
    have hint : "interface ".toList.isPrefixOf
        ('d' :: 'e' :: 'c' :: 'l' :: 'a' :: 'r' :: 'e' :: rest) = false := rfl
    rw [hts] at hsp
    have hfalse : looksLikeCompleteStatement s = false := by
      unfold looksLikeCompleteStatement
      rw [hts, hexp, htyp, hint, hsp]
      rfl
    unfold normalize
    rw [hfalse]
    simp

/-- Witness: "exports.foo = 1" passes through unwrapped, while
"typeof x", "interfaceX" and the bare word "declare" are all wrapped, via
the four general parts of the asymmetry theorem. -/
theorem normalizer_keyword_asymmetry_witness :
    normalize "exports.foo = 1".toList = "exports.foo = 1".toList ∧
    normalize "typeof x".toList = wrapAlias "typeof x".toList ∧
    normalize "interfaceX".toList = wrapAlias "interfaceX".toList ∧
    normalize "declare".toList = wrapAlias "declare".toList :=
  ⟨(normalizer_keyword_asymmetry).1 "exports.foo = 1".toList (by decide),
   (normalizer_keyword_asymmetry).2.1 "typeof x".toList (by decide) (by decide),
   (normalizer_keyword_asymmetry).2.2.1 "interfaceX".toList (by decide) (by decide),
   (normalizer_keyword_asymmetry).2.2.2.1 "declare".toList (by decide) (by decide)⟩

/-- Claim C10: the diagnostic filter is case-sensitive — a message
containing capitalized "Module" but neither lowercase "module" nor
"Cannot find" survives the filter and appears verbatim in the rejection
message. -/
theorem diagnostic_filter_case_sensitive :
    keepDiag "Module X is not assignable".toList = true ∧
    validate
        ⟨fun _ => .ok ⟨false, []⟩,
         fun _ => .ok ["Module X is not assignable".toList]⟩
        "5".toList
      = .error (syntaxErrorLabel ++ "Module X is not assignable".toList) := by
  constructor
  · decide
  · rfl

end NbTs
